import Mathlib

/-!
Shallow embedding of the pipeline-executor core of the bibliometric web
application (`src/core/pipeline_executor.py`, configuration record from
`src/config/config_manager.py`).

Modelling conventions:
* `PipelineConfig` keeps exactly the configuration fields the executor
  consults: the three validated fields (`domain1`, `domain2`, `figures_dir`,
  kept as `Option String` so that a missing attribute — Python `hasattr`
  returning false — is representable) and the eight flow-control booleans.
* Modelled from the spec: the phase classes (`src/core/phase_runner.py`) and
  the `Logger` (`src/core/logger.py`) are imported by the executor but absent
  from the sources.  Per the spec (§2, §6) a phase is an opaque collaborator
  exposing `run() -> bool` and `get_description() -> string`, and the logger
  is an external sink of structured entries.  A phase is therefore a
  behaviour (`PhaseBehavior`) indexed by how many times `run()` has been
  called so far, and every logger call, progress-callback delivery, `print`
  and `run()` invocation is recorded as an `Event` in an execution trace.
* A Python call that may raise is modelled by `PyResult`; `execute` itself
  returns a `PyResult Bool` so that a propagated exception is observable.
* `os.path.exists` is a parameter `pathExists : String → Bool`.
* The float `i / total_phases` progress fraction is modelled exactly in `ℚ`.
-/

namespace Biblio

/-- The six concrete phase variants of `phase_runner`. -/
inductive PhaseKind where
  | search
  | domainAnalysis
  | classification
  | analysis
  | tableExport
  | report
deriving DecidableEq, Repr

/-- Result of a Python call: a normal return or a raised exception. -/
inductive PyResult (α : Type) where
  | ok (val : α)
  | exn (msg : String)
deriving DecidableEq, Repr

/-- The configuration fields consulted by `PipelineExecutor`
(`PipelineConfig` dataclass, `src/config/config_manager.py`).  The three
validated fields are `Option`s so that a missing attribute is representable;
the flow-control flags are listed in dataclass order. -/
structure PipelineConfig where
  domain1 : Option String
  domain2 : Option String
  figures_dir : Option String
  skip_searches : Bool
  skip_integration : Bool
  skip_domain_analysis : Bool
  skip_classification : Bool
  skip_table : Bool
  only_search : Bool
  only_analysis : Bool
  only_report : Bool
deriving DecidableEq, Repr

/-- One observable step of an execution: logger calls, the guard `print`,
progress events delivered to the registered callback, and each invocation of
a phase's `run()` (tagged with how many times that phase had been invoked
before). -/
inductive Event where
  | printMsg (msg : String)
  | logError (msg : String)
  | startPipeline
  | phaseStart (name : String)
  | phaseEnd (success : Bool)
  | progress (phase : String) (frac : ℚ) (msg : String)
  | runInvoked (p : PhaseKind) (callIdx : Nat)
  | endPipeline (success : Bool)
  | saveSummary
deriving DecidableEq, Repr

/-- `PipelineExecutor._get_phases_to_run`, translated clause by clause. -/
def get_phases_to_run (c : PipelineConfig) : List PhaseKind :=
  if c.only_report then
    [PhaseKind.report]
  else if c.only_analysis then
    [PhaseKind.analysis] ++ (if !c.skip_table then [PhaseKind.tableExport] else [])
  else if !c.only_search then
    let all0 := [PhaseKind.search, PhaseKind.domainAnalysis, PhaseKind.classification,
                 PhaseKind.analysis, PhaseKind.tableExport, PhaseKind.report]
    let all1 :=
      if c.skip_domain_analysis then
        (all0.filter (fun p => !(p == PhaseKind.domainAnalysis))).filter
          (fun p => !(p == PhaseKind.classification))
      else all0
    let all2 :=
      if c.skip_classification then all1.filter (fun p => !(p == PhaseKind.classification))
      else all1
    let all3 :=
      if c.skip_table then all2.filter (fun p => !(p == PhaseKind.tableExport))
      else all2
    all3
  else
    [PhaseKind.search]

/-- Membership test for `needle` as a contiguous substring of `hay`
(Python's `needle in hay` on strings), on character lists. -/
def substringOf (needle : List Char) : List Char → Bool
  | [] => needle.isEmpty
  | c :: rest => needle.isPrefixOf (c :: rest) || substringOf needle rest

/-- Modelled from the spec: a phase collaborator (`src/core/phase_runner.py`
is absent from the sources) exposes `run() -> bool` and
`get_description() -> string` (§2, §6); either call may raise.  `run` is
indexed by the number of times it has already been invoked on this phase
object, so that repeated invocations are observable. -/
structure PhaseBehavior where
  run : Nat → PyResult Bool
  get_description : PyResult String

/-- The executor state relevant to `execute`: the configuration handed to
`__init__` (absent configuration modelled as `none`), the
`_execution_completed` guard flag, and whether a progress callback has been
registered via `register_progress_callback`. -/
structure PipelineExecutor where
  config : Option PipelineConfig
  execution_completed : Bool
  progress_callback : Bool
deriving DecidableEq, Repr

/-- `PipelineExecutor.report_progress`: the event reaches the callback only
if one is registered. -/
def report_progress (cb : Bool) (phase : String) (progress : ℚ) (msg : String) : List Event :=
  if cb then [Event.progress phase progress msg] else []

/-- `PipelineExecutor.validate_config`: presence of the configuration, the
three required fields in order, then existence of the `domain1` and `domain2`
paths.  Returns the boolean outcome together with the error log entries it
emits. -/
def validate_config (config : Option PipelineConfig) (pathExists : String → Bool) :
    Bool × List Event :=
  match config with
  | none => (false, [Event.logError "No configuration provided"])
  | some c =>
    match c.domain1 with
    | none => (false, [Event.logError "Missing required config field: domain1"])
    | some d1 =>
      match c.domain2 with
      | none => (false, [Event.logError "Missing required config field: domain2"])
      | some d2 =>
        match c.figures_dir with
        | none => (false, [Event.logError "Missing required config field: figures_dir"])
        | some _ =>
          if !pathExists d1 then
            (false, [Event.logError ("Domain1 file not found: " ++ d1)])
          else if !pathExists d2 then
            (false, [Event.logError ("Domain2 file not found: " ++ d2)])
          else
            (true, [])

/-- Outcome of the `for i, phase in enumerate(phases)` loop: it either runs
to a `break`/fall-through (`normal`, carrying the `success` flag) or a call
inside it raises and control transfers to the `except` clause (`caught`). -/
inductive LoopOut where
  | normal (success : Bool)
  | caught (msg : String)
deriving DecidableEq, Repr

/-- Increment the recorded invocation count of phase `p`. -/
def bump (counts : PhaseKind → Nat) (p : PhaseKind) : PhaseKind → Nat :=
  fun k => if k = p then counts k + 1 else counts k

/-- The phase loop of `PipelineExecutor.execute` (lines 34-60): for the
phase at index `i` of `n`, fetch its description, record phase start, emit
the starting progress event at fraction `i / n`, invoke `run()`, and on
failure emit the error progress event at the same fraction, record phase
end and break (with the extra log line when the description contains
"Analysis"); on success emit the completion event at `(i + 1) / n`, record
phase end and continue.  Returns the loop outcome, the updated per-phase
invocation counts and the emitted events. -/
def run_phases (behav : PhaseKind → PhaseBehavior) (cb : Bool) (n : Nat) :
    List PhaseKind → Nat → (PhaseKind → Nat) → LoopOut × (PhaseKind → Nat) × List Event
  | [], _, counts => (LoopOut.normal true, counts, [])
  | p :: rest, i, counts =>
    match (behav p).get_description with
    | PyResult.exn m => (LoopOut.caught m, counts, [])
    | PyResult.ok name =>
      let startEvs := [Event.phaseStart name] ++
        report_progress cb name ((i : ℚ) / (n : ℚ)) ("Starting " ++ name ++ " phase...")
      let callIdx := counts p
      let counts1 := bump counts p
      let runEv := [Event.runInvoked p callIdx]
      match (behav p).run callIdx with
      | PyResult.exn m => (LoopOut.caught m, counts1, startEvs ++ runEv)
      | PyResult.ok false =>
        let failEvs :=
          report_progress cb name ((i : ℚ) / (n : ℚ)) ("Error in " ++ name ++ " phase") ++
          [Event.phaseEnd false] ++
          (if substringOf "Analysis".toList name.toList then
            [Event.logError "Analysis phase failed - stopping pipeline"]
          else [])
        (LoopOut.normal false, counts1, startEvs ++ runEv ++ failEvs)
      | PyResult.ok true =>
        let okEvs :=
          report_progress cb name (((i : ℚ) + 1) / (n : ℚ)) ("Completed " ++ name ++ " phase") ++
          [Event.phaseEnd true]
        let rec1 := run_phases behav cb n rest (i + 1) counts1
        (rec1.1, rec1.2.1, startEvs ++ runEv ++ okEvs ++ rec1.2.2)

/-- Outcome of the summary-statistics computation
`len([p for p in phases if p.run()])` (line 70): the completed count, or
the exception raised by one of the re-invoked `run()` calls. -/
inductive StatsOut where
  | ok (completed : Nat)
  | exn (msg : String)
deriving DecidableEq, Repr

/-- The list comprehension `[p for p in phases if p.run()]` of the
summary-statistics step: it re-invokes `run()` on every phase of the
selected list, left to right, and a raised exception propagates (this step
is outside the `try` block). -/
def stats_runs (behav : PhaseKind → PhaseBehavior) :
    List PhaseKind → (PhaseKind → Nat) → StatsOut × List Event
  | [], _ => (StatsOut.ok 0, [])
  | p :: rest, counts =>
    let callIdx := counts p
    let runEv := [Event.runInvoked p callIdx]
    match (behav p).run callIdx with
    | PyResult.exn m => (StatsOut.exn m, runEv)
    | PyResult.ok b =>
      let rec1 := stats_runs behav rest (bump counts p)
      match rec1.1 with
      | StatsOut.exn m => (StatsOut.exn m, runEv ++ rec1.2)
      | StatsOut.ok completedRest =>
        (StatsOut.ok ((if b then 1 else 0) + completedRest), runEv ++ rec1.2)

/-- The body of `PipelineExecutor.execute` after the guard and validation
have passed: `start_pipeline`, the phase loop inside `try`, the
`except Exception` clause (log the error, emit the terminal progress event
at fraction `1.0`), then the summary-statistics step that re-invokes every
phase's `run()` (outside the `try`, so an exception raised there propagates
and `_execution_completed` is not set), then `end_pipeline` and
`save_summary`.  Returns the result (or propagated exception), the events,
and whether `_execution_completed` got set. -/
def execute_body (cb : Bool) (behav : PhaseKind → PhaseBehavior)
    (phases : List PhaseKind) : PyResult Bool × List Event × Bool :=
  let n := phases.length
  let lr := run_phases behav cb n phases 0 (fun _ => 0)
  let success :=
    match lr.1 with
    | LoopOut.normal b => b
    | LoopOut.caught _ => false
  let bodyEvs :=
    match lr.1 with
    | LoopOut.normal _ => lr.2.2
    | LoopOut.caught m =>
      lr.2.2 ++ [Event.logError m] ++ report_progress cb "Error" 1 ("Error: " ++ m)
  let sr := stats_runs behav phases lr.2.1
  match sr.1 with
  | StatsOut.exn m =>
    (PyResult.exn m, [Event.startPipeline] ++ bodyEvs ++ sr.2, false)
  | StatsOut.ok _ =>
    (PyResult.ok success,
     [Event.startPipeline] ++ bodyEvs ++ sr.2 ++
       [Event.endPipeline success, Event.saveSummary],
     true)

/-- `PipelineExecutor.execute`, line by line: the `_execution_completed`
guard (with its `print`), validation (on failure log
"Invalid configuration" and return `false`), then the body: phase loop,
exception capture, summary statistics, `end_pipeline`, `save_summary`,
setting `_execution_completed` and returning the success flag.  Result: the
returned value (or propagated exception), the event trace and the
post-call executor state. -/
def execute (s : PipelineExecutor) (behav : PhaseKind → PhaseBehavior)
    (pathExists : String → Bool) : PyResult Bool × List Event × PipelineExecutor :=
  if s.execution_completed then
    (PyResult.ok false, [Event.printMsg "Pipeline already executed. Create a new instance."], s)
  else
    match s.config with
    | none =>
      (PyResult.ok false,
       (validate_config none pathExists).2 ++ [Event.logError "Invalid configuration"], s)
    | some c =>
      let v := validate_config (some c) pathExists
      if !v.1 then
        (PyResult.ok false, v.2 ++ [Event.logError "Invalid configuration"], s)
      else
        let r := execute_body s.progress_callback behav (get_phases_to_run c)
        (r.1, r.2.1,
         if r.2.2 then { s with execution_completed := true } else s)

/-- The progress fractions delivered to the callback, in emission order. -/
def progressFracs (tr : List Event) : List ℚ :=
  tr.filterMap (fun e =>
    match e with
    | Event.progress _ f _ => some f
    | _ => none)

/-- Whether an event is an invocation of some phase's `run()`. -/
def isRunEvent : Event → Bool
  | Event.runInvoked _ _ => true
  | _ => false

/-- The canonical full-pipeline phase order of `_get_phases_to_run`. -/
def canonicalPhases : List PhaseKind :=
  [PhaseKind.search, PhaseKind.domainAnalysis, PhaseKind.classification,
   PhaseKind.analysis, PhaseKind.tableExport, PhaseKind.report]

/-- A fully populated configuration with every flow-control flag off, used
as a base point for concrete checks. -/
def baseConfig : PipelineConfig :=
  { domain1 := some "Domain1.csv", domain2 := some "Domain2.csv",
    figures_dir := some "figures",
    skip_searches := false, skip_integration := false,
    skip_domain_analysis := false, skip_classification := false,
    skip_table := false,
    only_search := false, only_analysis := false, only_report := false }

/-- The filesystem in which every path exists. -/
def allPaths : String → Bool := fun _ => true

/-- Stub behaviour: every phase's `run()` returns `true` and its
description is a fixed string. -/
def okBehavior : PhaseKind → PhaseBehavior := fun _ =>
  { run := fun _ => PyResult.ok true, get_description := PyResult.ok "Phase" }

/-- Behaviour in which the Analysis phase fails (its `run()` returns
`false` on every call) while every other phase succeeds. -/
def failingAnalysisBehavior : PhaseKind → PhaseBehavior := fun p =>
  match p with
  | PhaseKind.analysis =>
    { run := fun _ => PyResult.ok false, get_description := PyResult.ok "Analysis" }
  | _ =>
    { run := fun _ => PyResult.ok true, get_description := PyResult.ok "Table Export" }

/-- A fresh executor configured with `only_analysis = true`
(selection: `[AnalysisPhase, TableExportPhase]`). -/
def onlyAnalysisExec : PipelineExecutor :=
  { config := some { baseConfig with only_analysis := true },
    execution_completed := false, progress_callback := true }

/-- Behaviour in which every phase's `run()` raises. -/
def raisingBehavior : PhaseKind → PhaseBehavior := fun _ =>
  { run := fun _ => PyResult.exn "boom", get_description := PyResult.ok "Report" }

/-- A fresh executor configured with `only_report = true`. -/
def onlyReportExec : PipelineExecutor :=
  { config := some { baseConfig with only_report := true },
    execution_completed := false, progress_callback := true }

/-- C7: for every configuration with `only_report = true`, phase selection
returns exactly the one-element list `[ReportPhase]`, regardless of all
other flow-control flags. -/
theorem only_report_selects_report_only (c : PipelineConfig)
    (h : c.only_report = true) :
    get_phases_to_run c = [PhaseKind.report] := by
  simp [get_phases_to_run, h]

/-- Concrete check of `only_report_selects_report_only`: the hypothesis is
discharged at a configuration with every other flag set. -/
theorem only_report_selects_report_only_witness :
    get_phases_to_run
      { baseConfig with
        only_report := true, only_analysis := true, only_search := true,
        skip_table := true, skip_domain_analysis := true,
        skip_classification := true, skip_searches := true,
        skip_integration := true } = [PhaseKind.report] :=
  only_report_selects_report_only _ rfl

/-- C8: for every configuration with `only_report = false` and
`only_analysis = true`, phase selection returns
`[AnalysisPhase, TableExportPhase]` when `skip_table = false` and
`[AnalysisPhase]` when `skip_table = true`. -/
theorem only_analysis_selection (c : PipelineConfig)
    (h1 : c.only_report = false) (h2 : c.only_analysis = true) :
    (c.skip_table = false →
      get_phases_to_run c = [PhaseKind.analysis, PhaseKind.tableExport]) ∧
    (c.skip_table = true → get_phases_to_run c = [PhaseKind.analysis]) := by
  constructor <;> intro h3 <;> simp [get_phases_to_run, h1, h2, h3]

/-- Concrete check of `only_analysis_selection` at a configuration with
`skip_table = false`. -/
theorem only_analysis_selection_witness :
    get_phases_to_run { baseConfig with only_analysis := true } =
      [PhaseKind.analysis, PhaseKind.tableExport] :=
  (only_analysis_selection { baseConfig with only_analysis := true } rfl rfl).1 rfl

/-- C9: phase selection never consults `skip_searches` or
`skip_integration`: changing exactly those two fields leaves the selected
phase list unchanged, for every configuration and every pair of values. -/
theorem skip_searches_integration_never_consulted (c : PipelineConfig)
    (b1 b2 : Bool) :
    get_phases_to_run { c with skip_searches := b1, skip_integration := b2 } =
      get_phases_to_run c := rfl

/-- C4: in the full-pipeline case (`only_report = only_analysis =
only_search = false`) with `skip_domain_analysis = true`, the selected list
contains neither DomainAnalysis nor Classification — whatever the value of
`skip_classification` — and the remaining phases keep their relative order
from the canonical sequence (the result is a sublist of it). -/
theorem skip_domain_analysis_removes_both (c : PipelineConfig)
    (h1 : c.only_report = false) (h2 : c.only_analysis = false)
    (h3 : c.only_search = false) (h4 : c.skip_domain_analysis = true) :
    PhaseKind.domainAnalysis ∉ get_phases_to_run c ∧
    PhaseKind.classification ∉ get_phases_to_run c ∧
    List.Sublist (get_phases_to_run c) canonicalPhases ∧
    get_phases_to_run c =
      (if c.skip_table then [PhaseKind.search, PhaseKind.analysis, PhaseKind.report]
       else [PhaseKind.search, PhaseKind.analysis, PhaseKind.tableExport,
             PhaseKind.report]) := by
  cases hst : c.skip_table <;> cases hsc : c.skip_classification <;>
    simp [get_phases_to_run, canonicalPhases, h1, h2, h3, h4, hst, hsc]

/-- Concrete check of `skip_domain_analysis_removes_both` at a
configuration with `skip_domain_analysis = true` and
`skip_classification = false`. -/
theorem skip_domain_analysis_removes_both_witness :
    PhaseKind.domainAnalysis ∉
      get_phases_to_run { baseConfig with skip_domain_analysis := true } ∧
    PhaseKind.classification ∉
      get_phases_to_run { baseConfig with skip_domain_analysis := true } ∧
    List.Sublist (get_phases_to_run { baseConfig with skip_domain_analysis := true })
      canonicalPhases ∧
    get_phases_to_run { baseConfig with skip_domain_analysis := true } =
      [PhaseKind.search, PhaseKind.analysis, PhaseKind.tableExport,
       PhaseKind.report] := by
  have h := skip_domain_analysis_removes_both
    { baseConfig with skip_domain_analysis := true } rfl rfl rfl rfl
  exact ⟨h.1, h.2.1, h.2.2.1, h.2.2.2⟩

/-- C10: phase selection always returns a non-empty list — in the
full-pipeline case Search, Analysis and Report survive every combination of
skip flags — so `total_phases` is at least `1` and the progress fractions
`i / total_phases` and `(i + 1) / total_phases` never divide by zero. -/
theorem phase_selection_nonempty (c : PipelineConfig) :
    1 ≤ (get_phases_to_run c).length ∧
    (c.only_report = false → c.only_analysis = false → c.only_search = false →
      PhaseKind.search ∈ get_phases_to_run c ∧
      PhaseKind.analysis ∈ get_phases_to_run c ∧
      PhaseKind.report ∈ get_phases_to_run c) := by
  rcases c with ⟨d1, d2, fd, ss, si, sda, sc, st, os, oa, orp⟩
  cases orp <;> cases oa <;> cases os <;> cases st <;> cases sda <;>
    cases sc <;> simp [get_phases_to_run]

/-- Concrete check of `phase_selection_nonempty` at the all-flags-off
configuration. -/
theorem phase_selection_nonempty_witness :
    1 ≤ (get_phases_to_run baseConfig).length ∧
    PhaseKind.search ∈ get_phases_to_run baseConfig ∧
    PhaseKind.analysis ∈ get_phases_to_run baseConfig ∧
    PhaseKind.report ∈ get_phases_to_run baseConfig :=
  ⟨(phase_selection_nonempty baseConfig).1,
   (phase_selection_nonempty baseConfig).2 rfl rfl rfl⟩

/-- Every log entry emitted by `validate_config` is a `logError`; in
particular it invokes no phase's `run()` and delivers no progress event. -/
theorem validate_config_events_logError (config : Option PipelineConfig)
    (pathExists : String → Bool) :
    ∀ e ∈ (validate_config config pathExists).2, ∃ m, e = Event.logError m := by
  rcases config with _ | c
  · simp [validate_config]
  · rcases h1 : c.domain1 with _ | d1 <;>
      rcases h2 : c.domain2 with _ | d2 <;>
      rcases h3 : c.figures_dir with _ | fd <;>
      simp [validate_config, h1, h2, h3] <;>
      cases hp1 : pathExists d1 <;> cases hp2 : pathExists d2 <;> simp

/-- A failed validation yields `false` with its error entries. -/
theorem validate_config_false_of (c : PipelineConfig) (pathExists : String → Bool)
    (h : c.domain1 = none ∨ c.domain2 = none ∨ c.figures_dir = none ∨
      (∃ d1, c.domain1 = some d1 ∧ pathExists d1 = false) ∨
      (∃ d2, c.domain2 = some d2 ∧ pathExists d2 = false)) :
    (validate_config (some c) pathExists).1 = false := by
  rcases h1 : c.domain1 with _ | d1 <;>
    rcases h2 : c.domain2 with _ | d2 <;>
    rcases h3 : c.figures_dir with _ | fd <;>
    simp [validate_config, h1, h2, h3] <;>
    rcases h with h | h | h | ⟨e1, he1, hp1⟩ | ⟨e2, he2, hp2⟩ <;>
    simp_all <;>
    split <;> rfl

/-- C5: whenever the configuration object is absent, one of `domain1`,
`domain2`, `figures_dir` is missing, or the path named by `domain1` or
`domain2` does not exist, `execute` returns `false` and no phase's `run()`
is ever invoked: validation fails closed before any phase executes. -/
theorem validation_fails_closed (s : PipelineExecutor)
    (behav : PhaseKind → PhaseBehavior) (pathExists : String → Bool)
    (h : s.config = none ∨ ∃ c, s.config = some c ∧
      (c.domain1 = none ∨ c.domain2 = none ∨ c.figures_dir = none ∨
       (∃ d1, c.domain1 = some d1 ∧ pathExists d1 = false) ∨
       (∃ d2, c.domain2 = some d2 ∧ pathExists d2 = false))) :
    (execute s behav pathExists).1 = PyResult.ok false ∧
    ∀ e ∈ (execute s behav pathExists).2.1, isRunEvent e = false := by
  cases hdone : s.execution_completed
  · rcases hc : s.config with _ | c
    · constructor
      · simp [execute, hdone, hc]
      · intro e he
        simp only [execute, hdone, hc, Bool.false_eq_true, if_false] at he
        simp only [List.mem_append] at he
        rcases he with he | he
        · obtain ⟨m, rfl⟩ := validate_config_events_logError none pathExists e he
          rfl
        · simp only [List.mem_singleton] at he
          subst he; rfl
    · have hvf : (validate_config (some c) pathExists).1 = false := by
        rcases h with h | ⟨c', hc', hbad⟩
        · rw [hc] at h; exact absurd h (by simp)
        · rw [hc] at hc'
          injection hc' with hcc
          subst hcc
          exact validate_config_false_of c pathExists hbad
      constructor
      · simp [execute, hdone, hc, hvf]
      · intro e he
        simp only [execute, hdone, hc, hvf, Bool.not_false, if_true,
          Bool.false_eq_true, if_false] at he
        simp only [List.mem_append] at he
        rcases he with he | he
        · obtain ⟨m, rfl⟩ :=
            validate_config_events_logError (some c) pathExists e he
          rfl
        · simp only [List.mem_singleton] at he
          subst he; rfl
  · constructor
    · simp [execute, hdone]
    · intro e he
      simp only [execute, hdone, if_true] at he
      simp only [List.mem_singleton] at he
      subst he; rfl

/-- Concrete check of `validation_fails_closed`: an executor whose
configuration names a `domain1` file that does not exist. -/
theorem validation_fails_closed_witness :
    (execute
      { config := some baseConfig, execution_completed := false,
        progress_callback := true }
      (fun _ => { run := fun _ => PyResult.ok true,
                  get_description := PyResult.ok "Phase" })
      (fun _ => false)).1 = PyResult.ok false ∧
    Event.runInvoked PhaseKind.search 0 ∉
      (execute
        { config := some baseConfig, execution_completed := false,
          progress_callback := true }
        (fun _ => { run := fun _ => PyResult.ok true,
                    get_description := PyResult.ok "Phase" })
        (fun _ => false)).2.1 := by
  have h := validation_fails_closed
    { config := some baseConfig, execution_completed := false,
      progress_callback := true }
    (fun _ => { run := fun _ => PyResult.ok true,
                get_description := PyResult.ok "Phase" })
    (fun _ => false)
    (Or.inr ⟨baseConfig, rfl,
      Or.inr (Or.inr (Or.inr (Or.inl ⟨"Domain1.csv", rfl, rfl⟩)))⟩)
  refine ⟨h.1, fun hmem => ?_⟩
  have hre := h.2 _ hmem
  simp [isRunEvent] at hre

/-- A normal completion of `execute_body` always reports that
`_execution_completed` got set. -/
theorem execute_body_ok_flag (cb : Bool) (behav : PhaseKind → PhaseBehavior)
    (phases : List PhaseKind) (b : Bool)
    (hr : (execute_body cb behav phases).1 = PyResult.ok b) :
    (execute_body cb behav phases).2.2 = true := by
  simp only [execute_body] at hr ⊢
  split at hr <;> simp_all

/-- C3: a completed execution sets the `_execution_completed` marker (first
conjunct: past validation, a normal boolean return leaves the executor
marked completed), and on a marked executor a further `execute` call
returns `false`, leaves the state unchanged and emits nothing but the guard
`print` — no phase invocation, no progress event, no log entry (second
conjunct). -/
theorem single_use_guard :
    (∀ (s : PipelineExecutor) (behav : PhaseKind → PhaseBehavior)
       (pathExists : String → Bool) (b : Bool),
       s.execution_completed = false →
       (validate_config s.config pathExists).1 = true →
       (execute s behav pathExists).1 = PyResult.ok b →
       ((execute s behav pathExists).2.2).execution_completed = true) ∧
    (∀ (s : PipelineExecutor) (behav : PhaseKind → PhaseBehavior)
       (pathExists : String → Bool),
       s.execution_completed = true →
       execute s behav pathExists =
         (PyResult.ok false,
          [Event.printMsg "Pipeline already executed. Create a new instance."],
          s)) := by
  constructor
  · intro s behav pathExists b hdone hval hr
    rcases hc : s.config with _ | c
    · rw [hc] at hval
      simp [validate_config] at hval
    · rw [hc] at hval
      simp only [execute, hdone, hc, hval, Bool.false_eq_true, if_false,
        Bool.not_true] at hr ⊢
      have hflag := execute_body_ok_flag s.progress_callback behav
        (get_phases_to_run c) b hr
      simp [hflag]
  · intro s behav pathExists hdone
    simp [execute, hdone]

/-- Concrete check of `single_use_guard`: run a fresh executor to
completion, observe the marker is set, then observe the second call is
rejected with only the guard `print`. -/
theorem single_use_guard_witness :
    ((execute
        { config := some { baseConfig with only_report := true },
          execution_completed := false, progress_callback := true }
        okBehavior allPaths).2.2).execution_completed = true ∧
    execute
        ((execute
          { config := some { baseConfig with only_report := true },
            execution_completed := false, progress_callback := true }
          okBehavior allPaths).2.2)
        okBehavior allPaths =
      (PyResult.ok false,
       [Event.printMsg "Pipeline already executed. Create a new instance."],
       (execute
         { config := some { baseConfig with only_report := true },
           execution_completed := false, progress_callback := true }
         okBehavior allPaths).2.2) := by
  have hflag := single_use_guard.1
    { config := some { baseConfig with only_report := true },
      execution_completed := false, progress_callback := true }
    okBehavior allPaths true rfl (by decide) (by rfl)
  exact ⟨hflag, single_use_guard.2 _ okBehavior allPaths hflag⟩

/-- C1: evaluation at the failing input.  With the two selected phases
`[Analysis, TableExport]` and Analysis (phase 1 of 2) failing, `execute`
does return `false` and the loop breaks, but the summary-statistics step
then re-invokes `run()` on every selected phase: TableExport's `run()`
(a phase after the failing one) is invoked, and Analysis's `run()` is
invoked a second time — contradicting "the run() of phases k+1..n is never
invoked". -/
theorem fail_fast_violated_by_stats_rerun :
    (execute onlyAnalysisExec failingAnalysisBehavior allPaths).1 =
      PyResult.ok false ∧
    Event.runInvoked PhaseKind.tableExport 0 ∈
      (execute onlyAnalysisExec failingAnalysisBehavior allPaths).2.1 ∧
    Event.runInvoked PhaseKind.analysis 1 ∈
      (execute onlyAnalysisExec failingAnalysisBehavior allPaths).2.1 := by
  decide

/-- C2: evaluation at the failing input.  With the single selected phase
Report whose `run()` raises on every call, the exception raised inside the
loop is caught (the error is logged), but the summary-statistics step —
outside the `try` block — re-invokes `run()` and the second raise
propagates out of `execute`: the caller does not receive a boolean, and
`_execution_completed` is never set. -/
theorem exception_escapes_execute :
    (execute onlyReportExec raisingBehavior allPaths).1 = PyResult.exn "boom" ∧
    Event.logError "boom" ∈
      (execute onlyReportExec raisingBehavior allPaths).2.1 ∧
    ((execute onlyReportExec raisingBehavior allPaths).2.2).execution_completed =
      false := by
  decide

/-- Bounds for the progress fraction `i / n` with `i ≤ n` and `0 < n`. -/
theorem frac_bounds (i n : Nat) (h1 : i ≤ n) (h2 : 0 < n) :
    0 ≤ (i : ℚ) / (n : ℚ) ∧ (i : ℚ) / (n : ℚ) ≤ 1 := by
  constructor
  · exact div_nonneg (by positivity) (by positivity)
  · rw [div_le_one (by exact_mod_cast h2)]
    exact_mod_cast h1

/-- `progressFracs` distributes over concatenation. -/
theorem progressFracs_append (l1 l2 : List Event) :
    progressFracs (l1 ++ l2) = progressFracs l1 ++ progressFracs l2 := by
  simp [progressFracs]

/-- `progressFracs` of the empty trace. -/
theorem progressFracs_nil : progressFracs [] = [] := rfl

/-- `progressFracs` of a trace starting with an event: the head contributes
its fraction exactly when it is a progress event. -/
theorem progressFracs_cons (e : Event) (tr : List Event) :
    progressFracs (e :: tr) =
      (match e with | Event.progress _ f _ => [f] | _ => []) ++
        progressFracs tr := by
  cases e <;> simp [progressFracs]

/-- The fractions delivered by one `report_progress` call. -/
theorem progressFracs_report (cb : Bool) (nm : String) (fr : ℚ) (msg : String) :
    progressFracs (report_progress cb nm fr msg) = if cb then [fr] else [] := by
  cases cb <;> simp [report_progress, progressFracs]

/-- A conditional error log entry contributes no progress fraction. -/
theorem progressFracs_if_logError (cnd : Bool) (msg : String) :
    progressFracs (if cnd = true then [Event.logError msg] else []) = [] := by
  cases cnd <;> simp [progressFracs]

/-- Every progress fraction emitted by the phase loop, started at index `i`
with `i + phases.length = n`, lies in `[0, 1]`. -/
theorem run_phases_fracs_bounded (behav : PhaseKind → PhaseBehavior) (cb : Bool)
    (n : Nat) (phases : List PhaseKind) :
    ∀ (i : Nat) (counts : PhaseKind → Nat), i + phases.length = n →
    ∀ f ∈ progressFracs (run_phases behav cb n phases i counts).2.2,
      0 ≤ f ∧ f ≤ 1 := by
  induction phases with
  | nil =>
    intro i counts hn f hf
    simp [run_phases, progressFracs] at hf
  | cons p rest ih =>
    intro i counts hn f hf
    simp only [List.length_cons] at hn
    have hi1 : i + 1 ≤ n := by omega
    have hi : i ≤ n := by omega
    have hpos : 0 < n := by omega
    have hcast : ((i : ℚ) + 1) = ((i + 1 : Nat) : ℚ) := by push_cast; ring
    simp only [run_phases] at hf
    rcases hdesc : (behav p).get_description with nm | m
    · rw [hdesc] at hf
      rcases hrun : (behav p).run (counts p) with b | m
      · rw [hrun] at hf
        rcases b with _ | _
        · rcases cb with _ | _
          · simp [progressFracs_append, progressFracs_cons, progressFracs_nil,
              progressFracs_report, progressFracs_if_logError] at hf
          · simp only [progressFracs_append, progressFracs_cons,
              progressFracs_nil, progressFracs_report,
              progressFracs_if_logError, if_true, List.mem_append,
              List.nil_append, List.append_nil, List.not_mem_nil,
              List.mem_singleton, or_false, false_or] at hf
            rcases hf with rfl | rfl <;> exact frac_bounds i n hi hpos
        · have hrest := ih (i + 1) (bump counts p) (by omega) f
          rcases cb with _ | _
          · simp only [progressFracs_append, progressFracs_cons,
              progressFracs_nil, progressFracs_report, if_false,
              Bool.false_eq_true, List.mem_append, List.nil_append,
              List.append_nil, List.not_mem_nil, false_or] at hf
            exact hrest hf
          · simp only [progressFracs_append, progressFracs_cons,
              progressFracs_nil, progressFracs_report, if_true,
              List.mem_append, List.nil_append, List.append_nil,
              List.not_mem_nil, List.mem_singleton, or_false,
              false_or] at hf
            rcases hf with (rfl | rfl) | hf
            · exact frac_bounds i n hi hpos
            · rw [hcast]; exact frac_bounds (i + 1) n hi1 hpos
            · exact hrest hf
      · rw [hrun] at hf
        rcases cb with _ | _
        · simp [progressFracs_append, progressFracs_cons, progressFracs_nil,
            progressFracs_report] at hf
        · simp only [progressFracs_append, progressFracs_cons,
            progressFracs_nil, progressFracs_report, if_true,
            List.mem_append, List.nil_append, List.append_nil,
            List.not_mem_nil, List.mem_singleton, or_false,
            false_or] at hf
          rcases hf with rfl
          exact frac_bounds i n hi hpos
    · rw [hdesc] at hf
      simp [progressFracs] at hf

/-- The summary-statistics step delivers no progress event. -/
theorem stats_runs_fracs (behav : PhaseKind → PhaseBehavior)
    (phases : List PhaseKind) :
    ∀ counts, progressFracs (stats_runs behav phases counts).2 = [] := by
  induction phases with
  | nil => intro counts; simp [stats_runs, progressFracs]
  | cons p rest ih =>
    intro counts
    simp only [stats_runs]
    rcases hrun : (behav p).run (counts p) with b | m
    · rcases hst : (stats_runs behav rest (bump counts p)).1 with m | m <;>
        simp [hst, progressFracs_append, progressFracs_cons, progressFracs_nil,
          ih (bump counts p)]
    · simp [progressFracs]

/-- Validation delivers no progress event. -/
theorem validate_config_fracs (config : Option PipelineConfig)
    (pathExists : String → Bool) :
    progressFracs (validate_config config pathExists).2 = [] := by
  have h := validate_config_events_logError config pathExists
  rw [progressFracs, List.filterMap_eq_nil_iff]
  intro e he
  obtain ⟨m, rfl⟩ := h e he
  rfl

/-- Every progress fraction emitted by the post-validation body of
`execute` lies in `[0, 1]`. -/
theorem execute_body_fracs_bounded (cb : Bool)
    (behav : PhaseKind → PhaseBehavior) (phases : List PhaseKind) :
    ∀ f ∈ progressFracs (execute_body cb behav phases).2.1, 0 ≤ f ∧ f ≤ 1 := by
  intro f hf
  have hloop := run_phases_fracs_bounded behav cb phases.length phases 0
    (fun _ => 0) (by omega) f
  simp only [execute_body] at hf
  rcases hst : (stats_runs behav phases
      (run_phases behav cb phases.length phases 0 fun _ => 0).2.1).1 with m | m <;>
    rw [hst] at hf <;>
    rcases hout : (run_phases behav cb phases.length phases 0 fun _ => 0).1
      with b | m2 <;>
    rw [hout] at hf <;>
    simp only [progressFracs_append, progressFracs_cons, progressFracs_nil,
      progressFracs_report, stats_runs_fracs, List.mem_append, List.nil_append,
      List.append_nil, List.not_mem_nil, or_false, false_or] at hf
  · exact hloop hf
  · rcases cb with _ | _
    · simp only [if_false, Bool.false_eq_true, List.not_mem_nil, or_false] at hf
      exact hloop hf
    · simp only [if_true, List.mem_singleton] at hf
      rcases hf with hf | rfl
      · exact hloop hf
      · norm_num
  · exact hloop hf
  · rcases cb with _ | _
    · simp only [if_false, Bool.false_eq_true, List.not_mem_nil, or_false] at hf
      exact hloop hf
    · simp only [if_true, List.mem_singleton] at hf
      rcases hf with hf | rfl
      · exact hloop hf
      · norm_num

/-- Prepending to a list with a known last element keeps that last
element. -/
theorem getLast?_cons_of_some {α : Type} (b : α) {l : List α} {x : α}
    (h : l.getLast? = some x) : (b :: l).getLast? = some x := by
  rcases l with _ | ⟨c, cs⟩
  · simp at h
  · rw [List.getLast?_cons_cons]; exact h

/-- When every description and every `run()` call succeeds, the phase loop
runs to the end with overall success. -/
theorem run_phases_allok_out (behav : PhaseKind → PhaseBehavior) (cb : Bool)
    (n : Nat) (phases : List PhaseKind) :
    ∀ (i : Nat) (counts : PhaseKind → Nat),
    (∀ p, ∃ nm, (behav p).get_description = PyResult.ok nm) →
    (∀ p k, (behav p).run k = PyResult.ok true) →
    (run_phases behav cb n phases i counts).1 = LoopOut.normal true := by
  induction phases with
  | nil => intro i counts _ _; rfl
  | cons p rest ih =>
    intro i counts hd hr
    obtain ⟨nm, hdp⟩ := hd p
    simp only [run_phases, hdp, hr p (counts p)]
    exact ih (i + 1) (bump counts p) hd hr

/-- When every description and every `run()` call succeeds and a callback
is registered, the last progress fraction emitted by the loop started at
index `i` is `(i + phases.length) / n`. -/
theorem run_phases_allok_last (behav : PhaseKind → PhaseBehavior) (n : Nat)
    (phases : List PhaseKind) :
    ∀ (i : Nat) (counts : PhaseKind → Nat),
    (∀ p, ∃ nm, (behav p).get_description = PyResult.ok nm) →
    (∀ p k, (behav p).run k = PyResult.ok true) →
    phases ≠ [] →
    (progressFracs (run_phases behav true n phases i counts).2.2).getLast? =
      some (((i + phases.length : Nat) : ℚ) / (n : ℚ)) := by
  induction phases with
  | nil => intro i counts _ _ hne; exact absurd rfl hne
  | cons p rest ih =>
    intro i counts hd hr _
    obtain ⟨nm, hdp⟩ := hd p
    simp only [run_phases, hdp, hr p (counts p)]
    rcases rest with _ | ⟨q, qs⟩
    · simp only [run_phases, progressFracs_append, progressFracs_cons,
        progressFracs_nil, progressFracs_report, if_true, List.append_nil,
        List.nil_append, List.singleton_append, List.cons_append,
        List.length_cons, List.length_nil]
      rw [List.getLast?_cons_cons, List.getLast?_singleton]
      congr 2
      push_cast
      ring
    · have ihr := ih (i + 1) (bump counts p) hd hr (by simp)
      simp only [progressFracs_append, progressFracs_cons, progressFracs_nil,
        progressFracs_report, if_true, List.append_nil, List.nil_append,
        List.singleton_append, List.cons_append, List.length_cons]
      refine (getLast?_cons_of_some _ (getLast?_cons_of_some _ ihr)).trans ?_
      congr 2
      push_cast [List.length_cons]
      ring

/-- When every `run()` call returns `true`, the summary-statistics step
completes normally. -/
theorem stats_runs_allok (behav : PhaseKind → PhaseBehavior)
    (phases : List PhaseKind) :
    ∀ counts, (∀ p k, (behav p).run k = PyResult.ok true) →
    ∃ m, (stats_runs behav phases counts).1 = StatsOut.ok m := by
  induction phases with
  | nil => intro counts _; exact ⟨0, rfl⟩
  | cons p rest ih =>
    intro counts hr
    obtain ⟨m, hm⟩ := ih (bump counts p) hr
    exact ⟨1 + m, by simp [stats_runs, hr p (counts p), hm]⟩

/-- Phase selection never returns the empty list. -/
theorem get_phases_to_run_ne_nil (c : PipelineConfig) :
    get_phases_to_run c ≠ [] := by
  rcases c with ⟨d1, d2, fd, ss, si, sda, sc, st, os, oa, orp⟩
  cases orp <;> cases oa <;> cases os <;> cases st <;> cases sda <;>
    cases sc <;> simp [get_phases_to_run]

/-- When every description and every `run()` call succeeds and a callback
is registered, the last progress fraction emitted by the executor body over
a non-empty phase list is exactly `1`. -/
theorem execute_body_allok (behav : PhaseKind → PhaseBehavior)
    (phases : List PhaseKind)
    (hd : ∀ p, ∃ nm, (behav p).get_description = PyResult.ok nm)
    (hr : ∀ p k, (behav p).run k = PyResult.ok true)
    (hne : phases ≠ []) :
    (progressFracs (execute_body true behav phases).2.1).getLast? = some 1 := by
  obtain ⟨m, hst⟩ := stats_runs_allok behav phases
    (run_phases behav true phases.length phases 0 (fun _ => 0)).2.1 hr
  have hout := run_phases_allok_out behav true phases.length phases 0
    (fun _ => 0) hd hr
  have hlast := run_phases_allok_last behav phases.length phases 0
    (fun _ => 0) hd hr hne
  have hlen : (phases.length : ℚ) ≠ 0 := by
    have : phases.length ≠ 0 := by
      simpa [List.length_eq_zero] using hne
    exact_mod_cast this
  simp only [execute_body, hst, hout]
  simp only [progressFracs_append, progressFracs_cons, progressFracs_nil,
    stats_runs_fracs, List.append_nil, List.nil_append]
  rw [hlast]
  simp [div_self hlen]

/-- C6: every progress fraction delivered to the registered callback during
`execute` lies in the closed interval `[0, 1]` (first conjunct,
unconditionally), and in a run that starts fresh, passes validation, has a
registered callback and in which every selected phase's `run()` returns
`true`, the final progress event carries fraction exactly `1` (second
conjunct). -/
theorem progress_events_bounded (s : PipelineExecutor)
    (behav : PhaseKind → PhaseBehavior) (pathExists : String → Bool) :
    (∀ f ∈ progressFracs (execute s behav pathExists).2.1, 0 ≤ f ∧ f ≤ 1) ∧
    (s.execution_completed = false → s.progress_callback = true →
     (∀ p, ∃ nm, (behav p).get_description = PyResult.ok nm) →
     (∀ p k, (behav p).run k = PyResult.ok true) →
     (validate_config s.config pathExists).1 = true →
     (progressFracs (execute s behav pathExists).2.1).getLast? = some 1) := by
  constructor
  · intro f hf
    rcases hdone : s.execution_completed with _ | _
    · rcases hc : s.config with _ | c
      · simp only [execute, hdone, hc, Bool.false_eq_true, if_false] at hf
        rw [progressFracs_append, validate_config_fracs] at hf
        simp [progressFracs] at hf
      · rcases hv : (validate_config (some c) pathExists).1 with _ | _
        · simp only [execute, hdone, hc, hv, Bool.false_eq_true, if_false,
            Bool.not_false, if_true] at hf
          rw [progressFracs_append, validate_config_fracs] at hf
          simp [progressFracs] at hf
        · simp only [execute, hdone, hc, hv, Bool.false_eq_true, if_false,
            Bool.not_true] at hf
          exact execute_body_fracs_bounded s.progress_callback behav
            (get_phases_to_run c) f hf
    · simp only [execute, hdone, if_true] at hf
      simp [progressFracs] at hf
  · intro h1 h2 hd hr hval
    rcases hc : s.config with _ | c
    · rw [hc] at hval
      simp [validate_config] at hval
    · rw [hc] at hval
      simp only [execute, h1, hc, hval, Bool.false_eq_true, if_false,
        Bool.not_true, h2]
      exact execute_body_allok behav (get_phases_to_run c) hd hr
        (get_phases_to_run_ne_nil c)

/-- Concrete check of `progress_events_bounded`: a fresh executor with the
full six-phase selection, all stub phases succeeding, ends at fraction
exactly `1`. -/
theorem progress_events_bounded_witness :
    (progressFracs
      (execute
        { config := some baseConfig, execution_completed := false,
          progress_callback := true }
        okBehavior allPaths).2.1).getLast? = some 1 :=
  (progress_events_bounded
    { config := some baseConfig, execution_completed := false,
      progress_callback := true }
    okBehavior allPaths).2 rfl rfl (fun _ => ⟨"Phase", rfl⟩)
    (fun _ _ => rfl) (by decide)

end Biblio
